import Mathlib

/-!
Verification of the coastermelt ARM assembly-level simulator core
(`backdoor/sim_arm_core.py`, with the legacy `backdoor/sim_arm.py`).

The Python source is shallowly embedded: machine words are `Nat` with
explicit masking where the source masks, mutable objects become explicit
state records, raised exceptions become `Except`, and calls to the remote
device transport are recorded as a trace of `DeviceEvent`s.
-/

namespace Coastermelt

/-! ## Shift/rotate primitives (sim_arm_core.py lines 38-91)

Each takes 32-bit unsigned inputs and returns `(result, carry_out)`.
They are copied operation-for-operation from the source; in particular
`lsl` returns the UNMASKED Python value `a << b` (the source does not
apply `& 0xffffffff` to the result). -/

/-- Embeds `lsl(a, b)`: `b &= 31; if b: return (a << b, 1 & ((a << b) >> 32)) else (a, 0)`. -/
def lsl (a b : Nat) : Nat × Nat :=
  let b := b % 32
  if b ≠ 0 then (a <<< b, 1 &&& ((a <<< b) >>> 32)) else (a, 0)

/-- Embeds `lsr(a, b)`. -/
def lsr (a b : Nat) : Nat × Nat :=
  let b := b % 32
  if b ≠ 0 then (a >>> b, 1 &&& (a >>> (b - 1))) else (a, 0)

/-- Embeds `asr(a, b)` (sign-extends `a` to 64 bits before shifting). -/
def asr (a b : Nat) : Nat × Nat :=
  let b := b % 32
  if b ≠ 0 then
    let a := if a &&& 0x80000000 ≠ 0 then a ||| 0xffffffff00000000 else a
    (a >>> b, 1 &&& (a >>> (b - 1)))
  else (a, 0)

/-- Embeds `ror(a, b)`. -/
def ror (a b : Nat) : Nat × Nat :=
  let b := b % 32
  if b ≠ 0 then ((a >>> b) ||| ((a <<< (32 - b)) &&& 0xffffffff), 1 &&& (a >>> (b - 1)))
  else (a, 0)

/-- Embeds `rol(a, b)`. -/
def rol (a b : Nat) : Nat × Nat :=
  let b := b % 32
  if b ≠ 0 then ((a >>> (32 - b)) ||| ((a <<< b) &&& 0xffffffff), 1 &&& (a >>> (31 - b)))
  else (a, 0)

/-! ## Run encoder (sim_arm_core.py lines 12-35)

`key` is `(address, pattern, size)` or `None` (the source's
`(None, None, None)`); an emitted tuple `(count, key)` models the source's
`(count, address, pattern, size)` with `count = 0` carrying `None` fields.
The source compares `self.key == (address - self.count * size, ...)` with
Python integer subtraction, so the comparison is made over `Int`. -/

structure RunEncoder where
  count : Nat
  key : Option (Nat × Nat × Nat)
  deriving DecidableEq

/-- Fresh encoder: `count = 0`, `key = (None, None, None)`. -/
def RunEncoder.init : RunEncoder := ⟨0, none⟩

/-- Embeds `RunEncoder.flush`: returns `(count,) + key` and clears the state. -/
def RunEncoder.flush (r : RunEncoder) : (Nat × Option (Nat × Nat × Nat)) × RunEncoder :=
  ((r.count, r.key), RunEncoder.init)

/-- The comparison `self.key == (address - self.count * size, pattern, size)`:
a `none` key (the source's `(None, None, None)`) never equals an integer
tuple. -/
def rleKeyMatches (key : Option (Nat × Nat × Nat)) (count address pattern size : Nat) : Bool :=
  match key with
  | none => false
  | some (ka, kp, ks) =>
    decide ((ka : Int) = (address : Int) - (count : Int) * (size : Int))
      && kp == pattern && ks == size

/-- Embeds `RunEncoder.write(address, pattern, size)`: extend the run and
emit nothing, or emit the accumulated run (`flush`) and start a new one. -/
def RunEncoder.write (r : RunEncoder) (address pattern size : Nat) :
    (Nat × Option (Nat × Nat × Nat)) × RunEncoder :=
  if rleKeyMatches r.key r.count address pattern size then
    ((0, none), { count := r.count + 1, key := r.key })
  else
    ((r.count, r.key), { count := 1, key := some (address, pattern, size) })

/-! ## The device transport, as a trace of calls

The transport itself is an external collaborator (spec section 1); reads are
answered by the `Device` oracle functions, and every call the memory proxy
makes is recorded as a `DeviceEvent`. -/

inductive DeviceEvent
  | peek (addr : Nat)
  | peekByte (addr : Nat)
  | poke (addr val : Nat)
  | pokeByte (addr val : Nat)
  | fillWords (addr pattern count : Nat)
  | fillBytes (addr pattern count : Nat)
  | blockRead (addr len : Nat)
  deriving DecidableEq

/-- Modelled from the spec: the remote transport port (spec section 6;
`read_block` lives in the external `dump` module, not under src/).
`peekW`/`peekB` answer `peek`/`peek_byte`; `block` answers
`block_read(addr, length, max_round_trips=1)` and may return fewer
bytes than requested. -/
structure Device where
  peekW : Nat → Nat
  peekB : Nat → Nat
  block : Nat → Nat → List Nat

/-- A device that answers zero to every read. -/
def devNull : Device := ⟨fun _ => 0, fun _ => 0, fun _ _ => []⟩

/-! ## Memory proxy state (SimARMMemory)

The two `io.BytesIO` streams are modelled by a content function together
with the stream's current size (its extent): `present a = true` models the
presence stream byte `local_addresses[a]` being `0xff` (the source only
ever writes `0x00`/`0xff` there; gap bytes a write skipped over are
zero-filled by `BytesIO` and read back as `0x00`), and `addrLen` is that
stream's size. `data`/`dataLen` model the shadow byte stream `local_data`
the same way. A `read(n)` whose window crosses the stream's end returns
fewer than `n` bytes, which is what makes `struct.unpack`/`ord` on the
result raise; the extents let the embedding reproduce those errors.
`skip` is membership in `skip_stores`. -/

structure SimMem where
  present : Nat → Bool
  addrLen : Nat
  data : Nat → Nat
  dataLen : Nat
  skip : Nat → Bool
  rle : RunEncoder

/-- A fresh memory proxy: empty streams, no skips, empty encoder. -/
def SimMem.init : SimMem :=
  { present := fun _ => false, addrLen := 0, data := fun _ => 0, dataLen := 0
    skip := fun _ => false, rle := RunEncoder.init }

/-- The Python exceptions the memory proxy can raise: `check_address`'s
`IndexError` (carrying the offending address), `struct.error` from
`struct.unpack` on a short `local_data` read, and `TypeError` from
`ord(b'')` in `load_byte`. -/
inductive MemErr
  | indexError (addr : Nat)
  | structError
  | typeError
  deriving DecidableEq

/-- Update one byte of a byte-stream content function. -/
def setByte (f : Nat → Nat) (a v : Nat) : Nat → Nat :=
  fun x => if x = a then v else f x

/-- Mark `len` presence bytes starting at `b` (a `seek(b)` then a write of
`b'\xff' * len`); a nonempty write extends the stream to at least
`b + len`. -/
def markPresentRange (m : SimMem) (b len : Nat) : SimMem :=
  { m with present := fun x => if b ≤ x ∧ x < b + len then true else m.present x
           addrLen := if len = 0 then m.addrLen else max m.addrLen (b + len) }

/-- Embeds `local_ram(begin, end)`: writes `end - begin + 1` presence bytes. -/
def localRam (m : SimMem) (b e : Nat) : SimMem :=
  markPresentRange m b (e + 1 - b)

/-- All four presence bytes of a word are `0xff`
(the source's `local_addresses.read(4) == b'\xff\xff\xff\xff'`). -/
def wordPresent (m : SimMem) (a : Nat) : Bool :=
  m.present a && m.present (a + 1) && m.present (a + 2) && m.present (a + 3)

/-- Both presence bytes of a half-word are `0xff`. -/
def halfPresent (m : SimMem) (a : Nat) : Bool :=
  m.present a && m.present (a + 1)

/-- Little-endian word read from the shadow data (`struct.unpack('<I', ...)`). -/
def readWord (m : SimMem) (a : Nat) : Nat :=
  m.data a ||| (m.data (a + 1) <<< 8) ||| (m.data (a + 2) <<< 16) ||| (m.data (a + 3) <<< 24)

/-- Little-endian half-word read from the shadow data. -/
def readHalf (m : SimMem) (a : Nat) : Nat :=
  m.data a ||| (m.data (a + 1) <<< 8)

/-- Little-endian word write to the shadow data (`seek(a)` then
`write(struct.pack('<I', data))`, which extends the stream to at least
`a + 4`). -/
def writeWordData (m : SimMem) (a v : Nat) : SimMem :=
  let d0 := setByte m.data a (v &&& 0xff)
  let d1 := setByte d0 (a + 1) ((v >>> 8) &&& 0xff)
  let d2 := setByte d1 (a + 2) ((v >>> 16) &&& 0xff)
  let d3 := setByte d2 (a + 3) ((v >>> 24) &&& 0xff)
  { m with data := d3, dataLen := max m.dataLen (a + 4) }

/-- Little-endian half-word write to the shadow data
(`struct.pack('<H', data)`, extending the stream to at least `a + 2`). -/
def writeHalfData (m : SimMem) (a v : Nat) : SimMem :=
  let d0 := setByte m.data a (v &&& 0xff)
  let d1 := setByte d0 (a + 1) ((v >>> 8) &&& 0xff)
  { m with data := d1, dataLen := max m.dataLen (a + 2) }

/-- Single byte write to the shadow data (`bytes([data])`; callers pass a
byte); extends the stream to at least `a + 1`. -/
def writeByteData (m : SimMem) (a v : Nat) : SimMem :=
  { m with data := setByte m.data a v, dataLen := max m.dataLen (a + 1) }

/-- Embeds `check_address`: raises `IndexError` for addresses at or above
`0x05000000`; the raised error carries the offending address. -/
def checkAddress (address : Nat) : Except MemErr Unit :=
  if address ≥ 0x05000000 then .error (.indexError address) else .ok ()

/-- The `while count > 0` tail of `post_rle_store`: one poke (word), two byte
pokes (half), or one byte poke (byte; the source asserts `size == 1` there)
per element, with `check_address` before each. -/
def postRleStoreLoop : Nat → Nat → Nat → Nat → Except MemErr (List DeviceEvent)
  | 0, _, _, _ => .ok []
  | c + 1, address, pattern, size =>
    match checkAddress address with
    | .error e => .error e
    | .ok _ =>
      let evs : List DeviceEvent :=
        if size = 4 then [.poke address pattern]
        else if size = 2 then
          [.pokeByte address (pattern &&& 0xff), .pokeByte (address + 1) (pattern >>> 8)]
        else [.pokeByte address pattern]
      match postRleStoreLoop c (address + size) pattern size with
      | .error e => .error e
      | .ok rest => .ok (evs ++ rest)

/-- Embeds `post_rle_store(count, address, pattern, size)`. A `none` key only
occurs with `count = 0` (the loop below then does nothing). -/
def postRleStore (emit : Nat × Option (Nat × Nat × Nat)) : Except MemErr (List DeviceEvent) :=
  match emit with
  | (_, none) => .ok []
  | (count, some (address, pattern, size)) =>
    if count > 1 ∧ size = 4 then
      match checkAddress address with
      | .error e => .error e
      | .ok _ => .ok [.fillWords address pattern count]
    else if count > 1 ∧ size = 1 then
      match checkAddress address with
      | .error e => .error e
      | .ok _ => .ok [.fillBytes address pattern count]
    else postRleStoreLoop count address pattern size

/-- Embeds `SimARMMemory.flush`: `post_rle_store(*self.rle.flush())`. -/
def SimMem.flushM (m : SimMem) : Except MemErr (SimMem × List DeviceEvent) :=
  match m.rle.flush with
  | (emit, r') =>
    match postRleStore emit with
    | .error e => .error e
    | .ok evs => .ok ({ m with rle := r' }, evs)

/-- Count consecutive present bytes from `a`, with fuel. -/
def availCount (m : SimMem) (a : Nat) : Nat → Nat
  | 0 => 0
  | n + 1 => if m.present a then 1 + availCount m (a + 1) n else 0

/-- Embeds `local_data_available(address, limit=0x100)`: `flags` is the
`read(0x100)` window, clipped to the presence stream's end, and the result
is the length of `flags[:flags.find(b'\x00')]`. When no `0x00` byte occurs
in the window — whether the window is the full 256 bytes or a short read
at the stream's frontier — `find` returns `-1` and the slice drops the
window's final byte. -/
def localDataAvailable (m : SimMem) (a : Nat) : Nat :=
  let flagsLen := min 0x100 (m.addrLen - a)
  let c := availCount m a flagsLen
  if c = flagsLen then flagsLen - 1 else c

/-- Write a block of bytes into the shadow data stream. -/
def writeBlock (m : SimMem) (a : Nat) : List Nat → SimMem
  | [] => m
  | b :: rest => writeBlock (writeByteData m a b) (a + 1) rest

/-- Embeds `fetch_local_data(address, size=0x100, max_round_trips=1)`:
reads a block from the device, marks it present, writes it to the shadow.
Returns the block length. -/
def fetchLocalData (dev : Device) (m : SimMem) (a : Nat) :
    Nat × SimMem × List DeviceEvent :=
  let block := dev.block a 0x100
  (block.length, writeBlock (markPresentRange m a block.length) a block,
    [DeviceEvent.blockRead a 0x100])

/-- Embeds `flash_prefetch_hint(address)`: for flash addresses
(`< 0x200000`) with fewer than 8 local bytes, flush the encoder and
prefetch up to 256 bytes. -/
def flashPrefetchHint (dev : Device) (m : SimMem) (a : Nat) :
    Except MemErr (Nat × SimMem × List DeviceEvent) :=
  let avail := localDataAvailable m a
  if a < 0x200000 ∧ avail < 8 then
    match m.flushM with
    | .error e => .error e
    | .ok (m1, evs1) =>
      match fetchLocalData dev m1 a with
      | (len, m2, evs2) => .ok (len, m2, evs1 ++ evs2)
  else .ok (avail, m, [])

/-- Embeds `SimARMMemory.load(address)`. In the shadow-hit branch the
source runs `struct.unpack('<I', local_data.read(4))`, which raises
`struct.error` when the read is short (the data stream's extent does not
cover the word); on the shadow-miss path the device is peeked before
`check_address`, so the error case simply reports the offending address
(the trace is only produced on success). -/
def SimMem.load (dev : Device) (m : SimMem) (a : Nat) :
    Except MemErr (Nat × SimMem × List DeviceEvent) :=
  match flashPrefetchHint dev m a with
  | .error e => .error e
  | .ok (_, m1, evs1) =>
    if wordPresent m1 a then
      if a + 4 ≤ m1.dataLen then .ok (readWord m1 a, m1, evs1)
      else .error .structError
    else
      match m1.flushM with
      | .error e => .error e
      | .ok (m2, evs2) =>
        match checkAddress a with
        | .error e => .error e
        | .ok _ => .ok (dev.peekW a, m2, evs1 ++ evs2 ++ [DeviceEvent.peek a])

/-- Embeds `SimARMMemory.load_half(address)` (device halves are emulated
with two byte peeks). The shadow-hit branch's `struct.unpack('<H', ...)`
raises `struct.error` on a short `local_data` read. -/
def SimMem.loadHalf (dev : Device) (m : SimMem) (a : Nat) :
    Except MemErr (Nat × SimMem × List DeviceEvent) :=
  match flashPrefetchHint dev m a with
  | .error e => .error e
  | .ok (_, m1, evs1) =>
    if halfPresent m1 a then
      if a + 2 ≤ m1.dataLen then .ok (readHalf m1 a, m1, evs1)
      else .error .structError
    else
      match m1.flushM with
      | .error e => .error e
      | .ok (m2, evs2) =>
        match checkAddress a with
        | .error e => .error e
        | .ok _ => .ok (dev.peekB a ||| (dev.peekB (a + 1) <<< 8), m2,
            evs1 ++ evs2 ++ [DeviceEvent.peekByte a, DeviceEvent.peekByte (a + 1)])

/-- Embeds `SimARMMemory.load_byte(address)`. The shadow-hit branch's
`ord(local_data.read(1))` raises `TypeError` when the read at or past the
data stream's end returns `b''`. -/
def SimMem.loadByte (dev : Device) (m : SimMem) (a : Nat) :
    Except MemErr (Nat × SimMem × List DeviceEvent) :=
  match flashPrefetchHint dev m a with
  | .error e => .error e
  | .ok (_, m1, evs1) =>
    if m1.present a then
      if a + 1 ≤ m1.dataLen then .ok (m1.data a, m1, evs1)
      else .error .typeError
    else
      match m1.flushM with
      | .error e => .error e
      | .ok (m2, evs2) =>
        match checkAddress a with
        | .error e => .error e
        | .ok _ => .ok (dev.peekB a, m2, evs1 ++ evs2 ++ [DeviceEvent.peekByte a])

/-- Embeds `SimARMMemory.store(address, data)`: shadow write when all four
bytes are present, else skip-table check, else run encoder. -/
def SimMem.store (m : SimMem) (a v : Nat) : Except MemErr (SimMem × List DeviceEvent) :=
  if wordPresent m a then .ok (writeWordData m a v, [])
  else if m.skip a then .ok (m, [])
  else
    match m.rle.write a v 4 with
    | (emit, r') =>
      match postRleStore emit with
      | .error e => .error e
      | .ok evs => .ok ({ m with rle := r' }, evs)

/-- Embeds `SimARMMemory.store_half(address, data)`. -/
def SimMem.storeHalf (m : SimMem) (a v : Nat) : Except MemErr (SimMem × List DeviceEvent) :=
  if halfPresent m a then .ok (writeHalfData m a v, [])
  else if m.skip a then .ok (m, [])
  else
    match m.rle.write a v 2 with
    | (emit, r') =>
      match postRleStore emit with
      | .error e => .error e
      | .ok evs => .ok ({ m with rle := r' }, evs)

/-- Embeds `SimARMMemory.store_byte(address, data)`. -/
def SimMem.storeByte (m : SimMem) (a v : Nat) : Except MemErr (SimMem × List DeviceEvent) :=
  if m.present a then .ok (writeByteData m a v, [])
  else if m.skip a then .ok (m, [])
  else
    match m.rle.write a v 1 with
    | (emit, r') =>
      match postRleStore emit with
      | .error e => .error e
      | .ok evs => .ok ({ m with rle := r' }, evs)

/-! ## Simulator CPU state (SimARM)

`regs` is the 16-entry register file (`regs[15]` is the pc), the four
`cpsr` fields are the condition flags, `branch` is the per-step scratch
`_branch` field (`none` models Python `None`), and `mem` is the attached
`SimARMMemory` object. -/

structure SimState where
  regs : List Nat
  cpsrN : Bool
  cpsrZ : Bool
  cpsrC : Bool
  cpsrV : Bool
  thumb : Bool
  branch : Option Nat
  stepCount : Nat
  mem : SimMem

/-- The program counter, `regs[15]`. -/
def SimState.pc (s : SimState) : Nat := s.regs.getD 15 0

/-- Write the program counter. -/
def SimState.setPC (s : SimState) (v : Nat) : SimState :=
  { s with regs := s.regs.set 15 v }

/-- One icache record as the step driver consumes it: address, forward
`next_address` link, and whether an HLE marker is attached (`instr.hle`).
The mnemonic/args are carried implicitly by the opfunc argument below. -/
structure Instr where
  address : Nat
  nextAddress : Nat
  hleTag : Bool

/-- Outcome of running an opfunc (or a hook): the mutated simulator state,
or the state at the moment a Python exception was raised. -/
inductive OpOutcome
  | ok (s : SimState)
  | exn (s : SimState)

/-- Outcome of one `step` iteration: normal completion (with a flag saying
whether the breakpoint was hit and the loop returned), or a propagated
exception. -/
inductive StepOutcome
  | done (s : SimState) (hitBreakpoint : Bool)
  | exn (s : SimState)

/-- The state carried by either outcome. -/
def StepOutcome.getState : StepOutcome → SimState
  | .done s _ => s
  | .exn s => s

/-- Whether the outcome is a propagated exception. -/
def StepOutcome.isExn : StepOutcome → Bool
  | .done _ _ => false
  | .exn _ => true

/-- Whether the outcome is a breakpoint return. -/
def StepOutcome.hitBp : StepOutcome → Bool
  | .done _ b => b
  | .exn _ => false

/-- Embeds `regs[15] = self._branch or instr.next_address` (sim_arm_core.py
line 534): Python `or` falls back to `next_address` both when `_branch` is
`None` and when it is `0` (zero is falsy). -/
def pyOrBranch (b : Option Nat) (next : Nat) : Nat :=
  match b with
  | none => next
  | some x => if x = 0 then next else x

/-- The start of a step iteration: `step_count += 1`, `_branch = None`, and
the architectural pc advance (Thumb: `(next_address + 3) & ~3`, written here
as clearing the low two bits; ARM: `pc + 8`). -/
def archAdvance (instr : Instr) (s : SimState) : SimState :=
  let s := { s with stepCount := s.stepCount + 1, branch := none }
  if s.thumb then s.setPC ((instr.nextAddress + 3) - (instr.nextAddress + 3) % 4)
  else s.setPC (s.pc + 8)

/-- Run the hook that was looked up at the top of the iteration (`if hook:
hook(self)`); an exception from the hook propagates as-is. -/
def runHook (hook : Option (SimState → OpOutcome)) (s : SimState) : StepOutcome :=
  match hook with
  | none => .done s false
  | some h =>
    match h s with
    | .ok u => .done u false
    | .exn u => .exn u

/-- Embeds one iteration of `SimARM.step` (sim_arm_core.py lines 511-547).
`opfunc` stands for resolving and invoking `instr.opfunc` (both happen
inside the `try`), `hleRes` for `memory.hle_invoke(instr, r0)` (outside the
`try`; `.error` is a raised exception), `hook` for the hook found for the
pre-step pc, and `bp` for the `breakpoint` argument. -/
def stepOnce (instr : Instr) (opfunc : SimState → OpOutcome)
    (hleRes : Nat → Except Unit Nat) (hook : Option (SimState → OpOutcome))
    (bp : Option Nat) (s0 : SimState) : StepOutcome :=
  let s1 := archAdvance instr s0
  match opfunc s1 with
  | .exn t => .exn (t.setPC instr.address)
  | .ok t =>
    let pc2 := pyOrBranch t.branch instr.nextAddress
    let t2 := t.setPC pc2
    if bp = some pc2 then .done t2 true
    else if instr.hleTag then
      match hleRes (t2.regs.getD 0 0) with
      | .error _ => .exn t2
      | .ok v => runHook hook { t2 with regs := t2.regs.set 0 v }
    else runHook hook t2

/-! ## Shifter and data-processing operations

`_shifter` parses its operand string once at compile time; the parse
outcomes are represented by `ShifterOperand` and the runtime evaluation is
copied from the source. -/

/-- A parsed `_reg_or_literal` operand: `#literal` (`int(s[1:], 0) &
0xffffffff`) or a register number. -/
inductive RegOrLit
  | lit (n : Nat)
  | reg (rn : Nat)

/-- Evaluate a `_reg_or_literal` thunk against the current state. -/
def RegOrLit.eval (s : SimState) : RegOrLit → Nat
  | .lit n => n &&& 0xffffffff
  | .reg rn => s.regs.getD rn 0

/-- The shift mnemonics `_shifter` recognises after the comma. -/
inductive ShiftKind
  | lsl | lsr | asr | rol | ror

/-- A parsed `_shifter` operand: a bare operand (result carries carry 0), a
bare second token (implicit `ror` used for encoded 32-bit literals), or
`Rm, <op> <operand>`. -/
inductive ShifterOperand
  | simple (a : RegOrLit)
  | rorLiteral (a : RegOrLit) (b : Nat)
  | shifted (op : ShiftKind) (a : RegOrLit) (b : RegOrLit)

/-- Evaluate a compiled `_shifter` thunk: returns `(result, carry)`. -/
def shifterEval (s : SimState) : ShifterOperand → Nat × Nat
  | .simple a => (a.eval s, 0)
  | .rorLiteral a b => ror (a.eval s) (b &&& 0xffffffff)
  | .shifted .lsl a b => lsl (a.eval s) (b.eval s)
  | .shifted .lsr a b => lsr (a.eval s) (b.eval s)
  | .shifted .asr a b => asr (a.eval s) (b.eval s)
  | .shifted .rol a b => rol (a.eval s) (b.eval s)
  | .shifted .ror a b => ror (a.eval s) (b.eval s)

/-- A parsed destination: the name `pc`, or a plain register number
(`_dstpc` tests the destination name against the string `'pc'`). -/
inductive Dst
  | pc
  | reg (rn : Nat)

/-- Embeds `_dstpc`: writing `pc` records a branch (`_branch = r &
0xfffffffe`, `thumb = r & 1`); any other register is masked to 32 bits. -/
def dstpc (d : Dst) (r : Nat) (s : SimState) : SimState :=
  match d with
  | .pc => { s with branch := some (r &&& 0xfffffffe), thumb := (r &&& 1) == 1 }
  | .reg rn => { s with regs := s.regs.set rn (r &&& 0xffffffff) }

/-- Embeds the thunk returned by `op_movs` (sim_arm_core.py lines 876-885):
`r, cpsrC = sF(); cpsrZ = r == 0; cpsrN = (r >> 31) & 1; dF(r)`.
Note `cpsrZ` is computed on the raw shifter result, before any masking. -/
def op_movs_run (src : ShifterOperand) (dst : Dst) (s : SimState) : SimState :=
  match shifterEval s src with
  | (r, c) =>
    let s := { s with cpsrC := c == 1, cpsrZ := r == 0, cpsrN := ((r >>> 31) &&& 1) == 1 }
    dstpc dst r s

/-- Embeds the thunk returned by `op_mvns` (sim_arm_core.py lines 895-905):
the source assigns the shifter carry to `self.csprC` — a misspelt, otherwise
unused attribute — so the real flag `cpsrC` is left unchanged; `N` and `Z`
come from the complemented result, which is then written through `_dstpc`. -/
def op_mvns_run (src : ShifterOperand) (dst : Dst) (s : SimState) : SimState :=
  match shifterEval s src with
  | (r0, _) =>
    let r := r0 ^^^ 0xffffffff
    let s := { s with cpsrZ := r == 0, cpsrN := ((r >>> 31) &&& 1) == 1 }
    dstpc dst r s

/-! ## Condition-code decorator

`_generate_condition_codes` wraps each base thunk in a predicate over the
current flags. `condCore` is the table from sim_arm_core.py lines 645-662;
`condLegacy` is the table from sim_arm.py lines 324-341 (whose `ls` entry
reads `self.cpsrZ and not self.cpsrC`). -/

structure Flags where
  n : Bool
  z : Bool
  c : Bool
  v : Bool
  deriving DecidableEq

/-- The condition-code suffixes the decorator generates (plus `al`). -/
inductive CondSuffix
  | eq | ne | cs | hs | cc | lo | mi | pl | vs | vc | hi | ls | ge | lt | gt | le | al
  deriving DecidableEq

/-- Embeds the predicate table of `SimARM._generate_condition_codes` in
sim_arm_core.py. -/
def condCore (fl : Flags) : CondSuffix → Bool
  | .eq => fl.z
  | .ne => !fl.z
  | .cs => fl.c
  | .hs => fl.c
  | .cc => !fl.c
  | .lo => !fl.c
  | .mi => fl.n
  | .pl => !fl.n
  | .vs => fl.v
  | .vc => !fl.v
  | .hi => fl.c && !fl.z
  | .ls => fl.z || !fl.c
  | .ge => (!fl.n) == (!fl.v)
  | .lt => (!fl.n) != (!fl.v)
  | .gt => ((!fl.n) == (!fl.v)) && !fl.z
  | .le => ((!fl.n) != (!fl.v)) || fl.z
  | .al => true

/-- Embeds the predicate table of `SimARM._generate_condition_codes` in the
legacy sim_arm.py (its `ls` entry is `self.cpsrZ and not self.cpsrC`). -/
def condLegacy (fl : Flags) : CondSuffix → Bool
  | .eq => fl.z
  | .ne => !fl.z
  | .cs => fl.c
  | .hs => fl.c
  | .cc => !fl.c
  | .lo => !fl.c
  | .mi => fl.n
  | .pl => !fl.n
  | .vs => fl.v
  | .vc => !fl.v
  | .hi => fl.c && !fl.z
  | .ls => fl.z && !fl.c
  | .ge => (!(!fl.n)) == (!(!fl.v))
  | .lt => (!(!fl.n)) != (!(!fl.v))
  | .gt => ((!(!fl.n)) == (!(!fl.v))) && !fl.z
  | .le => ((!(!fl.n)) != (!(!fl.v))) || fl.z
  | .al => true

/-- Modelled from the spec: the standard ARM predicate table of section 4.6
(`eq: Z; ...; hi: C && !Z; ls: Z || !C; ge: N == V; lt: N != V;
gt: (N == V) && !Z; le: (N != V) || Z; al: unconditional`). -/
def specCond (fl : Flags) : CondSuffix → Bool
  | .eq => fl.z
  | .ne => !fl.z
  | .cs => fl.c
  | .hs => fl.c
  | .cc => !fl.c
  | .lo => !fl.c
  | .mi => fl.n
  | .pl => !fl.n
  | .vs => fl.v
  | .vc => !fl.v
  | .hi => fl.c && !fl.z
  | .ls => fl.z || !fl.c
  | .ge => fl.n == fl.v
  | .lt => fl.n != fl.v
  | .gt => (fl.n == fl.v) && !fl.z
  | .le => (fl.n != fl.v) || fl.z
  | .al => true

/-- The current flags of a simulator state. -/
def SimState.flags (s : SimState) : Flags :=
  ⟨s.cpsrN, s.cpsrZ, s.cpsrC, s.cpsrV⟩

/-- The conditional thunk the decorator registers: `(predicate) and fn()` —
the base operation runs precisely when the predicate over the current flags
holds (sim_arm_core.py table). -/
def condThunkCore (sfx : CondSuffix) (fn : SimState → SimState) (s : SimState) : SimState :=
  if condCore s.flags sfx then fn s else s

/-! ## Concrete fixtures used by the theorems -/

/-- A state as produced by `reset(0)`: all registers and flags cleared,
ARM mode, a fresh memory proxy. -/
def baseState : SimState :=
  { regs := List.replicate 16 0, cpsrN := false, cpsrZ := false, cpsrC := false
    cpsrV := false, thumb := false, branch := none, stepCount := 0, mem := SimMem.init }

/-- The identity HLE handler result. -/
def hleId : Nat → Except Unit Nat := fun r => .ok r

/-- An opfunc (or hook) with no effect. -/
def opId : SimState → OpOutcome := fun s => .ok s

/-- An opfunc (or hook) that raises immediately. -/
def opExn : SimState → OpOutcome := fun s => .exn s

/-! ## C1 — shifter carry scenario -/

/-- State with `r0 = 0x80000000`. -/
def C1state : SimState := { baseState with regs := baseState.regs.set 0 0x80000000 }

/-- C1 (code_bug evidence): evaluating the source at the claimed scenario.
`lsl(0x80000000, 1)` returns the UNMASKED result `0x100000000` (not
`(a<<b) & 0xffffffff = 0` as the claim and spec state), so
`movs r1, r0, lsl #1` computes `Z` from the unmasked value and leaves
`Z = 0`; `r1 = 0` (masked at the destination write) and `C = 1` do hold. -/
theorem C1_movs_shifter_carry :
    lsl 0x80000000 1 = (0x100000000, 1) ∧
    (lsl 0x80000000 1).1 ≠ (0x80000000 <<< 1) &&& 0xffffffff ∧
    (op_movs_run (.shifted .lsl (.reg 0) (.lit 1)) (.reg 1) C1state).regs.getD 1 0 = 0 ∧
    (op_movs_run (.shifted .lsl (.reg 0) (.lit 1)) (.reg 1) C1state).cpsrC = true ∧
    (op_movs_run (.shifted .lsl (.reg 0) (.lit 1)) (.reg 1) C1state).cpsrZ = false := by
  refine ⟨rfl, by decide, rfl, rfl, rfl⟩

/-! ## C8 — mvns carry -/

/-- State with incoming carry set (`r0 = 0`). -/
def C8state : SimState := { baseState with cpsrC := true }

/-- C8 (code_bug evidence): for `mvns r1, r0` with `r0 = 0` and incoming
`C = 1`, the shifter carry-out is `0`, but `op_mvns` assigns it to the
misspelt attribute `csprC`, so the real flag `cpsrC` stays `1` instead of
becoming the shifter carry; the destination and `N`, `Z` (from the
complemented result) behave as the claim states. -/
theorem C8_mvns_carry_typo :
    (shifterEval C8state (.simple (.reg 0))).2 = 0 ∧
    (op_mvns_run (.simple (.reg 0)) (.reg 1) C8state).cpsrC = true ∧
    (op_mvns_run (.simple (.reg 0)) (.reg 1) C8state).regs.getD 1 0 = 0xffffffff ∧
    (op_mvns_run (.simple (.reg 0)) (.reg 1) C8state).cpsrZ = false ∧
    (op_mvns_run (.simple (.reg 0)) (.reg 1) C8state).cpsrN = true := by
  refine ⟨rfl, rfl, rfl, rfl, rfl⟩

/-! ## C4 — condition-code decorator -/

/-- The core table (sim_arm_core.py) agrees with the spec's predicate table
on every suffix and every flag state. -/
theorem condCore_eq_specCond (fl : Flags) (sfx : CondSuffix) :
    condCore fl sfx = specCond fl sfx := by
  rcases fl with ⟨n, z, c, v⟩
  cases sfx <;> cases n <;> cases z <;> cases c <;> cases v <;> rfl

/-- C4 (code_bug evidence): the sim_arm_core.py conditional thunk runs the
base operation exactly when the spec's standard ARM predicate holds (last
two conjuncts), but the legacy sim_arm.py table computes `ls` as
`Z && !C`, so at flags `Z = 1, C = 1` the legacy `ls` thunk skips the
operation that the claim (and the core file) requires to execute. -/
theorem C4_condition_table :
    condLegacy ⟨false, true, true, false⟩ CondSuffix.ls = false ∧
    specCond ⟨false, true, true, false⟩ CondSuffix.ls = true ∧
    condCore ⟨false, true, true, false⟩ CondSuffix.ls = true ∧
    (∀ (fl : Flags) (sfx : CondSuffix), condCore fl sfx = specCond fl sfx) ∧
    (∀ (sfx : CondSuffix) (fn : SimState → SimState) (s : SimState),
      condThunkCore sfx fn s = if specCond s.flags sfx then fn s else s) := by
  refine ⟨rfl, rfl, rfl, condCore_eq_specCond, ?_⟩
  intro sfx fn s
  unfold condThunkCore
  rw [condCore_eq_specCond]

/-! ## C2 — branch sink -/

/-- A plain instruction at address 4 with `next_address = 12`. -/
def C2instr : Instr := { address := 4, nextAddress := 12, hleTag := false }

/-- An opfunc that stores a branch target of 0 (e.g. `b 0x0`). -/
def C2opfunc : SimState → OpOutcome := fun s => .ok { s with branch := some 0 }

/-- C2 counterexample: an opfunc stores the branch target `0` into
`_branch`, yet the step driver sets `pc = 12 = instr.next_address`
(Python's `or` treats the stored `0` as absent), not `0` as the claim
requires for every stored value. -/
theorem C2_branch_zero_cex :
    (stepOnce C2instr C2opfunc hleId none none baseState).isExn = false ∧
    (stepOnce C2instr C2opfunc hleId none none baseState).getState.pc = 12 := by
  refine ⟨rfl, rfl⟩

/-- C2 amended: after a successful opfunc the driver sets
`pc = _branch or next_address`; a stored nonzero branch wins, while a
missing branch or a stored branch of `0` falls back to
`instr.next_address`. -/
theorem C2_branch_sink (instr : Instr) (opfunc : SimState → OpOutcome)
    (hleRes : Nat → Except Unit Nat) (s t : SimState)
    (hop : opfunc (archAdvance instr s) = .ok t)
    (hhle : instr.hleTag = false) :
    stepOnce instr opfunc hleRes none none s =
      .done (t.setPC (pyOrBranch t.branch instr.nextAddress)) false ∧
    (∀ b, t.branch = some b → b ≠ 0 → pyOrBranch t.branch instr.nextAddress = b) ∧
    (t.branch = none → pyOrBranch t.branch instr.nextAddress = instr.nextAddress) ∧
    (t.branch = some 0 → pyOrBranch t.branch instr.nextAddress = instr.nextAddress) := by
  refine ⟨?_, ?_, ?_, ?_⟩
  · simp only [stepOnce, hop, hhle]
    simp [runHook]
  · intro b hb hbne
    simp [pyOrBranch, hb, hbne]
  · intro hb
    simp [pyOrBranch, hb]
  · intro hb
    simp [pyOrBranch, hb]

/-- An opfunc that stores the nonzero branch target 6. -/
def C2Wopfunc : SimState → OpOutcome := fun s => .ok { s with branch := some 6 }

/-- The state C2Wopfunc produces inside the step. -/
def C2Wt : SimState := { archAdvance C2instr baseState with branch := some 6 }

/-- Witness for C2_branch_sink at a concrete instruction and opfunc. -/
theorem C2_branch_sink_witness :
    stepOnce C2instr C2Wopfunc hleId none none baseState =
      .done (C2Wt.setPC (pyOrBranch C2Wt.branch C2instr.nextAddress)) false :=
  (C2_branch_sink C2instr C2Wopfunc hleId baseState C2Wt rfl rfl).1

/-! ## C6 — step ordering around the breakpoint -/

/-- An HLE-tagged instruction at address 4 with `next_address = 8`. -/
def C6instr : Instr := { address := 4, nextAddress := 8, hleTag := true }

/-- State with `r0 = 5`. -/
def C6state : SimState := { baseState with regs := baseState.regs.set 0 5 }

/-- An HLE handler that returns `r0 + 1`. -/
def C6hle : Nat → Except Unit Nat := fun r => .ok (r + 1)

/-- A hook that writes 99 to `r1`. -/
def C6hook : SimState → OpOutcome := fun s => .ok { s with regs := s.regs.set 1 99 }

/-- C6 counterexample: the fetched instruction carries an HLE tag and a
hook is registered, but the post-instruction pc (8) equals the breakpoint,
so the driver returns at once: `r0` keeps 5 (the HLE result 6 is never
written) and `r1` keeps 0 (the hook never runs) — the claim says neither
may be skipped. -/
theorem C6_breakpoint_skips_hle_cex :
    (stepOnce C6instr opId C6hle (some C6hook) (some 8) C6state).hitBp = true ∧
    (stepOnce C6instr opId C6hle (some C6hook) (some 8) C6state).getState.regs.getD 0 0 = 5 ∧
    (stepOnce C6instr opId C6hle (some C6hook) (some 8) C6state).getState.regs.getD 1 0 = 0 := by
  refine ⟨rfl, rfl, rfl⟩

/-- C6 amended: the driver compares the new pc against the breakpoint
immediately after the pc update and BEFORE the HLE invocation and hook; on
a hit it returns with both skipped, and only on a miss does the HLE result
reach `r0` and the hook run afterwards. -/
theorem C6_step_order (instr : Instr) (opfunc : SimState → OpOutcome)
    (hleRes : Nat → Except Unit Nat) (hook : Option (SimState → OpOutcome))
    (bp : Option Nat) (s t : SimState) (hv : Nat)
    (hop : opfunc (archAdvance instr s) = .ok t)
    (hhle : instr.hleTag = true)
    (hres : hleRes ((t.setPC (pyOrBranch t.branch instr.nextAddress)).regs.getD 0 0) = .ok hv) :
    (bp = some (pyOrBranch t.branch instr.nextAddress) →
      stepOnce instr opfunc hleRes hook bp s =
        .done (t.setPC (pyOrBranch t.branch instr.nextAddress)) true) ∧
    (bp ≠ some (pyOrBranch t.branch instr.nextAddress) →
      stepOnce instr opfunc hleRes hook bp s =
        runHook hook
          { t.setPC (pyOrBranch t.branch instr.nextAddress) with
            regs := (t.setPC (pyOrBranch t.branch instr.nextAddress)).regs.set 0 hv }) := by
  constructor
  · intro hbp
    simp only [stepOnce, hop, hbp]
    simp
  · intro hbp
    simp only [stepOnce, hop, hhle, hres]
    simp [hbp]

/-- The state `opId` produces inside the C6 witness step. -/
def C6Wt : SimState := archAdvance C6instr C6state

/-- Witness for C6_step_order: no breakpoint, so the HLE result 6 reaches
`r0` and the hook runs. -/
theorem C6_step_order_witness :
    stepOnce C6instr opId C6hle (some C6hook) none C6state =
      runHook (some C6hook)
        { C6Wt.setPC (pyOrBranch C6Wt.branch C6instr.nextAddress) with
          regs := (C6Wt.setPC (pyOrBranch C6Wt.branch C6instr.nextAddress)).regs.set 0 6 } :=
  (C6_step_order C6instr opId C6hle (some C6hook) none C6state C6Wt 6 rfl rfl rfl).2
    (by decide)

/-! ## C9 — exception atomicity of step -/

/-- A plain instruction at address 4 with `next_address = 8`. -/
def C9instr : Instr := { address := 4, nextAddress := 8, hleTag := false }

/-- C9 counterexample: the user hook raises; the exception propagates with
`pc = 8` (the post-instruction value), NOT restored to `instr.address = 4`
as the claim requires for hook exceptions (the hook runs outside the
driver's `try`). -/
theorem C9_hook_exn_cex :
    (stepOnce C9instr opId hleId (some opExn) none baseState).isExn = true ∧
    (stepOnce C9instr opId hleId (some opExn) none baseState).getState.pc = 8 ∧
    C9instr.address = 4 := by
  refine ⟨rfl, rfl, rfl⟩

/-- C9 amended: only an exception raised by the opfunc (its lazy
compilation included) restores `pc = instr.address` before propagating;
the driver's exception path touches nothing else, so the memory proxy —
including the RLE encoder's pending run — is exactly as the opfunc left
it, unflushed. -/
theorem C9_opfunc_exn_restores (instr : Instr) (opfunc : SimState → OpOutcome)
    (hleRes : Nat → Except Unit Nat) (hook : Option (SimState → OpOutcome))
    (bp : Option Nat) (s t : SimState)
    (hop : opfunc (archAdvance instr s) = .exn t) :
    stepOnce instr opfunc hleRes hook bp s = .exn (t.setPC instr.address) ∧
    (t.setPC instr.address).mem = t.mem ∧
    (t.setPC instr.address).mem.rle = t.mem.rle := by
  refine ⟨?_, rfl, rfl⟩
  simp only [stepOnce, hop]

/-- The state the raising opfunc carries in the C9 witness. -/
def C9Wt : SimState := archAdvance C9instr baseState

/-- Witness for C9_opfunc_exn_restores at a concrete raising opfunc. -/
theorem C9_opfunc_exn_restores_witness :
    stepOnce C9instr opExn hleId none none baseState = .exn (C9Wt.setPC C9instr.address) :=
  (C9_opfunc_exn_restores C9instr opExn hleId none none baseState C9Wt rfl).1

/-! ## C3 — RLE boundary invariant -/

/-- Memory after `local_ram(0x2000000, 0x2000fff)`. -/
def C3m1 : SimMem := localRam SimMem.init 0x2000000 0x2000fff

/-- C3m1 after a shadow store of `0x12345678` to `0x2000000` (the hit path
writes the word into `local_data`, extending that stream to cover it). -/
def C3m2 : SimMem := writeWordData C3m1 0x2000000 0x12345678

/-- C3m2 with the pending one-word run left by a store to `0x3000000`. -/
def C3m3 : SimMem := { C3m2 with rle := { count := 1, key := some (0x3000000, 7, 4) } }

/-- C3 counterexample: after `local_ram(0x2000000, 0x2000fff)`, a shadow
store of `0x12345678` to `0x2000000` and a store to the non-present
address `0x3000000`, the run encoder holds a pending run (`count = 1`);
`load(0x2000000)` is then satisfied from the local shadow and completes
with the pending run still buffered (`count = 1`, no device traffic) — so
the buffer is NOT empty immediately before every load. -/
theorem C3_shadow_load_no_flush_cex :
    SimMem.store C3m1 0x2000000 0x12345678 = .ok (C3m2, []) ∧
    SimMem.store C3m2 0x3000000 7 = .ok (C3m3, []) ∧
    C3m3.rle.count = 1 ∧
    SimMem.load devNull C3m3 0x2000000 = .ok (0x12345678, C3m3, []) ∧
    C3m3.rle.count ≠ 0 := by
  refine ⟨rfl, rfl, rfl, rfl, by decide⟩

/-- C3 amended: the buffer IS emptied before the device is queried: on the
shadow-miss path of `load`, `load_half` and `load_byte` (for a sane
address away from the flash prefetch window) the pending run is flushed,
its device traffic precedes the peek(s), and the encoder is empty
afterwards; a load of any of the three widths satisfied from the local
shadow (with the data stream covering the access) returns with the whole
memory state — the pending run included — untouched. -/
theorem C3_flush_before_device_peek (dev : Device) (m : SimMem) (a : Nat)
    (evs : List DeviceEvent)
    (h1 : 0x200000 ≤ a) (h3 : a < 0x05000000)
    (hf : postRleStore (m.rle.count, m.rle.key) = .ok evs) :
    (wordPresent m a = false →
      SimMem.load dev m a =
        .ok (dev.peekW a, { m with rle := RunEncoder.init }, evs ++ [DeviceEvent.peek a])) ∧
    (halfPresent m a = false →
      SimMem.loadHalf dev m a =
        .ok (dev.peekB a ||| (dev.peekB (a + 1) <<< 8), { m with rle := RunEncoder.init },
          evs ++ [DeviceEvent.peekByte a, DeviceEvent.peekByte (a + 1)])) ∧
    (m.present a = false →
      SimMem.loadByte dev m a =
        .ok (dev.peekB a, { m with rle := RunEncoder.init }, evs ++ [DeviceEvent.peekByte a])) ∧
    (wordPresent m a = true → a + 4 ≤ m.dataLen →
      SimMem.load dev m a = .ok (readWord m a, m, [])) ∧
    (halfPresent m a = true → a + 2 ≤ m.dataLen →
      SimMem.loadHalf dev m a = .ok (readHalf m a, m, [])) ∧
    (m.present a = true → a + 1 ≤ m.dataLen →
      SimMem.loadByte dev m a = .ok (m.data a, m, [])) ∧
    ({ m with rle := RunEncoder.init } : SimMem).rle.count = 0 := by
  have hp : flashPrefetchHint dev m a = .ok (localDataAvailable m a, m, []) := by
    simp only [flashPrefetchHint]
    rw [if_neg (fun hc => absurd hc.1 (by omega))]
  have hchk : checkAddress a = .ok () := by
    simp [checkAddress, Nat.not_le.mpr h3]
  refine ⟨?_, ?_, ?_, ?_, ?_, ?_, rfl⟩
  · intro h2
    simp [SimMem.load, hp, h2, SimMem.flushM, RunEncoder.flush, hf, hchk]
  · intro h2
    simp [SimMem.loadHalf, hp, h2, SimMem.flushM, RunEncoder.flush, hf, hchk]
  · intro h2
    simp [SimMem.loadByte, hp, h2, SimMem.flushM, RunEncoder.flush, hf, hchk]
  · intro h2 hlen
    simp [SimMem.load, hp, h2, hlen]
  · intro h2 hlen
    simp [SimMem.loadHalf, hp, h2, hlen]
  · intro h2 hlen
    simp [SimMem.loadByte, hp, h2, hlen]

/-- Witness for C3_flush_before_device_peek: fresh memory (empty encoder),
a non-flash, non-present address. -/
theorem C3_flush_before_device_peek_witness :
    SimMem.load devNull SimMem.init 0x300000 =
      .ok (0, { SimMem.init with rle := RunEncoder.init }, [DeviceEvent.peek 0x300000]) :=
  (C3_flush_before_device_peek devNull SimMem.init 0x300000 [] (by decide) (by decide)
    rfl).1 rfl

/-! ## C5 — fill coalescing -/

/-- Run-encoder memory state after `count` coalesced stores of `pat`
starting at `0x2000000`. -/
def fillMem (pat count : Nat) : SimMem :=
  { SimMem.init with rle := { count := count, key := some (0x2000000, pat, 4) } }

/-- The C5 scenario: three word stores of the same pattern to
`0x2000000, 0x2000004, 0x2000008` on a fresh memory proxy, then a flush;
the result collects the device traffic of the whole sequence. -/
def fillScenario (pat : Nat) : Except MemErr (List DeviceEvent) :=
  (SimMem.store SimMem.init 0x2000000 pat).bind fun p1 =>
  (SimMem.store p1.1 0x2000004 pat).bind fun p2 =>
  (SimMem.store p2.1 0x2000008 pat).bind fun p3 =>
  (p3.1.flushM).bind fun p4 =>
  .ok (p1.2 ++ p2.2 ++ p3.2 ++ p4.2)

/-- Rewriting helper: bind over a known-successful computation. -/
theorem bind_ok_eq {ε α β : Type} (a : α) (x : Except ε α) (f : α → Except ε β)
    (h : x = .ok a) : x.bind f = f a := by
  rw [h]
  rfl

/-- The first store of the C5 scenario starts a run of length 1. -/
theorem fill_store1 (pat : Nat) :
    SimMem.store SimMem.init 0x2000000 pat = .ok (fillMem pat 1, []) := rfl

/-- A continuing store extends the pending run and emits nothing. -/
theorem fill_store_extend (pat c a : Nat)
    (h : rleKeyMatches (some (0x2000000, pat, 4)) c a pat 4 = true) :
    SimMem.store (fillMem pat c) a pat = .ok (fillMem pat (c + 1), []) := by
  have hw : (fillMem pat c).rle.write a pat 4 =
      ((0, none), { count := c + 1, key := some (0x2000000, pat, 4) }) := by
    show (if rleKeyMatches (some (0x2000000, pat, 4)) c a pat 4 then _ else _) = _
    rw [if_pos h]
    rfl
  calc SimMem.store (fillMem pat c) a pat
      = (match (fillMem pat c).rle.write a pat 4 with
        | (emit, r') =>
          match postRleStore emit with
          | Except.error e => Except.error e
          | Except.ok evs => Except.ok ({ fillMem pat c with rle := r' }, evs)) := rfl
    _ = .ok (fillMem pat (c + 1), []) := by rw [hw]; rfl

/-- Flushing the three-store run produces exactly one `fill_words` call. -/
theorem fill_flush (pat : Nat) :
    (fillMem pat 3).flushM =
      .ok ({ fillMem pat 3 with rle := RunEncoder.init },
        [DeviceEvent.fillWords 0x2000000 pat 3]) := rfl

/-- C5 (confirmed): three consecutive word stores of the same pattern to
`0x2000000, 0x2000004, 0x2000008` on a fresh proxy (addresses not locally
present and not skipped), followed by a flush, reach the transport as the
single call `fill_words(0x2000000, pattern, 3)` — no individual pokes. -/
theorem C5_fill_coalescing (pat : Nat) :
    fillScenario pat = .ok [DeviceEvent.fillWords 0x2000000 pat 3] := by
  have e2 : rleKeyMatches (some (0x2000000, pat, 4)) 1 0x2000004 pat 4 = true := by
    simp [rleKeyMatches]
  have e3 : rleKeyMatches (some (0x2000000, pat, 4)) 2 0x2000008 pat 4 = true := by
    simp [rleKeyMatches]
  unfold fillScenario
  rw [bind_ok_eq _ _ _ (fill_store1 pat)]
  simp only []
  rw [bind_ok_eq _ _ _ (fill_store_extend pat 1 0x2000004 e2)]
  simp only []
  rw [bind_ok_eq _ _ _ (fill_store_extend pat 2 0x2000008 e3)]
  simp only []
  rw [bind_ok_eq _ _ _ (fill_flush pat)]
  rfl

/-! ## C7 — address sanity on load -/

/-- Memory whose shadow marks the word at `0x05000000` present. -/
def C7m : SimMem := localRam SimMem.init 0x05000000 0x05000003

/-- C7m after a shadow store of `7` to `0x05000000` (the hit path writes
`local_data`, so subsequent shadow reads have the full word available). -/
def C7m2 : SimMem := writeWordData C7m 0x05000000 7

/-- C7 counterexample: `0x05000000` is at the sanity ceiling, yet once its
word is marked present and a store has populated the shadow data, `load`,
`load_half` and `load_byte` all return the stored value with no
`IndexError` — the claim says each must raise regardless of presence. -/
theorem C7_present_no_raise_cex :
    SimMem.store C7m 0x05000000 7 = .ok (C7m2, []) ∧
    SimMem.load devNull C7m2 0x05000000 = .ok (7, C7m2, []) ∧
    SimMem.loadHalf devNull C7m2 0x05000000 = .ok (7, C7m2, []) ∧
    SimMem.loadByte devNull C7m2 0x05000000 = .ok (7, C7m2, []) := by
  refine ⟨rfl, rfl, rfl, rfl⟩

/-- C7 amended: for `a ≥ 0x05000000` (taking an empty pending run, so the
miss-path flush cannot raise first), each load raises the address-sanity
`IndexError` exactly when the covered bytes are NOT all present in the
shadow — the check sits on the device path, after the peek. When the
covered bytes are present no address check runs at all: the shadow value
is returned if the shadow data stream covers the access, and a short data
stream raises `struct.error` (`TypeError` for `load_byte`) instead of the
sanity error. -/
theorem C7_sanity_only_on_miss (dev : Device) (m : SimMem) (a : Nat)
    (ha : 0x05000000 ≤ a) (hr : m.rle = RunEncoder.init) :
    (wordPresent m a = false → SimMem.load dev m a = .error (.indexError a)) ∧
    (wordPresent m a = true → a + 4 ≤ m.dataLen →
      SimMem.load dev m a = .ok (readWord m a, m, [])) ∧
    (wordPresent m a = true → m.dataLen < a + 4 →
      SimMem.load dev m a = .error .structError) ∧
    (halfPresent m a = false → SimMem.loadHalf dev m a = .error (.indexError a)) ∧
    (halfPresent m a = true → a + 2 ≤ m.dataLen →
      SimMem.loadHalf dev m a = .ok (readHalf m a, m, [])) ∧
    (halfPresent m a = true → m.dataLen < a + 2 →
      SimMem.loadHalf dev m a = .error .structError) ∧
    (m.present a = false → SimMem.loadByte dev m a = .error (.indexError a)) ∧
    (m.present a = true → a + 1 ≤ m.dataLen →
      SimMem.loadByte dev m a = .ok (m.data a, m, [])) ∧
    (m.present a = true → m.dataLen < a + 1 →
      SimMem.loadByte dev m a = .error .typeError) := by
  have hp : flashPrefetchHint dev m a = .ok (localDataAvailable m a, m, []) := by
    simp only [flashPrefetchHint]
    rw [if_neg (fun hc => absurd hc.1 (by omega))]
  have hsan : checkAddress a = .error (.indexError a) := by
    simp [checkAddress, ha]
  refine ⟨?_, ?_, ?_, ?_, ?_, ?_, ?_, ?_, ?_⟩
  · intro h
    simp [SimMem.load, hp, h, SimMem.flushM, RunEncoder.flush, hr, RunEncoder.init,
      postRleStore, hsan]
  · intro h hlen
    simp [SimMem.load, hp, h, hlen]
  · intro h hlen
    simp [SimMem.load, hp, h, Nat.not_le.mpr hlen]
  · intro h
    simp [SimMem.loadHalf, hp, h, SimMem.flushM, RunEncoder.flush, hr, RunEncoder.init,
      postRleStore, hsan]
  · intro h hlen
    simp [SimMem.loadHalf, hp, h, hlen]
  · intro h hlen
    simp [SimMem.loadHalf, hp, h, Nat.not_le.mpr hlen]
  · intro h
    simp [SimMem.loadByte, hp, h, SimMem.flushM, RunEncoder.flush, hr, RunEncoder.init,
      postRleStore, hsan]
  · intro h hlen
    simp [SimMem.loadByte, hp, h, hlen]
  · intro h hlen
    simp [SimMem.loadByte, hp, h, Nat.not_le.mpr hlen]

/-- Witness for C7_sanity_only_on_miss: fresh memory, nothing present at
`0x06000000`, so the load raises with the offending address. -/
theorem C7_sanity_only_on_miss_witness :
    SimMem.load devNull SimMem.init 0x06000000 = .error (.indexError 0x06000000) :=
  (C7_sanity_only_on_miss devNull SimMem.init 0x06000000 (by decide) rfl).1 rfl

/-! ## C10 — partial-presence store edge -/

/-- C10 (confirmed): each store writes the local shadow exactly when every
byte it covers is marked present; the hit path changes only the data
stream (presence, skip table and encoder untouched, no device traffic),
and on any partial or absent presence the shadow data is left completely
unchanged while the store takes the skip/RLE path. -/
theorem C10_store_shadow_iff (m : SimMem) (a v : Nat) :
    (wordPresent m a = true →
      SimMem.store m a v = .ok (writeWordData m a v, []) ∧
      (writeWordData m a v).present = m.present ∧
      (writeWordData m a v).skip = m.skip ∧
      (writeWordData m a v).rle = m.rle) ∧
    (wordPresent m a = false →
      ∀ m' evs, SimMem.store m a v = .ok (m', evs) → m'.data = m.data ∧ m'.present = m.present) ∧
    (halfPresent m a = true →
      SimMem.storeHalf m a v = .ok (writeHalfData m a v, []) ∧
      (writeHalfData m a v).present = m.present ∧
      (writeHalfData m a v).skip = m.skip ∧
      (writeHalfData m a v).rle = m.rle) ∧
    (halfPresent m a = false →
      ∀ m' evs, SimMem.storeHalf m a v = .ok (m', evs) →
        m'.data = m.data ∧ m'.present = m.present) ∧
    (m.present a = true →
      SimMem.storeByte m a v = .ok (writeByteData m a v, []) ∧
      (writeByteData m a v).present = m.present ∧
      (writeByteData m a v).skip = m.skip ∧
      (writeByteData m a v).rle = m.rle) ∧
    (m.present a = false →
      ∀ m' evs, SimMem.storeByte m a v = .ok (m', evs) →
        m'.data = m.data ∧ m'.present = m.present) := by
  refine ⟨?_, ?_, ?_, ?_, ?_, ?_⟩
  · intro h
    exact ⟨by simp only [SimMem.store, h, if_true], rfl, rfl, rfl⟩
  · intro h m' evs
    simp only [SimMem.store, h, Bool.false_eq_true, if_false]
    by_cases hs : m.skip a
    · rw [if_pos hs]
      intro hst
      simp only [Except.ok.injEq, Prod.mk.injEq] at hst
      rw [← hst.1]
      exact ⟨rfl, rfl⟩
    · rw [if_neg hs]
      rcases hw : m.rle.write a v 4 with ⟨emit, r'⟩
      rcases hpost : postRleStore emit with e | evs0
      · simp only [hw, hpost]
        intro hst
        exact absurd hst (by simp)
      · simp only [hw, hpost]
        intro hst
        simp only [Except.ok.injEq, Prod.mk.injEq] at hst
        rw [← hst.1]
        exact ⟨rfl, rfl⟩
  · intro h
    exact ⟨by simp only [SimMem.storeHalf, h, if_true], rfl, rfl, rfl⟩
  · intro h m' evs
    simp only [SimMem.storeHalf, h, Bool.false_eq_true, if_false]
    by_cases hs : m.skip a
    · rw [if_pos hs]
      intro hst
      simp only [Except.ok.injEq, Prod.mk.injEq] at hst
      rw [← hst.1]
      exact ⟨rfl, rfl⟩
    · rw [if_neg hs]
      rcases hw : m.rle.write a v 2 with ⟨emit, r'⟩
      rcases hpost : postRleStore emit with e | evs0
      · simp only [hw, hpost]
        intro hst
        exact absurd hst (by simp)
      · simp only [hw, hpost]
        intro hst
        simp only [Except.ok.injEq, Prod.mk.injEq] at hst
        rw [← hst.1]
        exact ⟨rfl, rfl⟩
  · intro h
    exact ⟨by simp only [SimMem.storeByte, h, if_true], rfl, rfl, rfl⟩
  · intro h m' evs
    simp only [SimMem.storeByte, h, Bool.false_eq_true, if_false]
    by_cases hs : m.skip a
    · rw [if_pos hs]
      intro hst
      simp only [Except.ok.injEq, Prod.mk.injEq] at hst
      rw [← hst.1]
      exact ⟨rfl, rfl⟩
    · rw [if_neg hs]
      rcases hw : m.rle.write a v 1 with ⟨emit, r'⟩
      rcases hpost : postRleStore emit with e | evs0
      · simp only [hw, hpost]
        intro hst
        exact absurd hst (by simp)
      · simp only [hw, hpost]
        intro hst
        simp only [Except.ok.injEq, Prod.mk.injEq] at hst
        rw [← hst.1]
        exact ⟨rfl, rfl⟩

/-- Memory with only two of the four bytes of the word at `0x2000000`
marked present. -/
def mPartial : SimMem := localRam SimMem.init 0x2000000 0x2000001

/-- Witness for C10_store_shadow_iff: a store covering a partially present
word leaves the shadow data untouched. -/
theorem C10_store_shadow_iff_witness :
    ({ mPartial with rle := { count := 1, key := some (0x2000000, 5, 4) } } : SimMem).data
      = mPartial.data ∧
    ({ mPartial with rle := { count := 1, key := some (0x2000000, 5, 4) } } : SimMem).present
      = mPartial.present :=
  (C10_store_shadow_iff mPartial 0x2000000 5).2.1 rfl
    { mPartial with rle := { count := 1, key := some (0x2000000, 5, 4) } } [] rfl

end Coastermelt
